import Mathlib

/-!
Verification of the fridaynz task-board client's synchronization and
mutation logic.  The definitions below are shallow embeddings of the
TypeScript/JavaScript functions named in their doc comments; timestamps
and UI-only fields are omitted, asynchronous effects are made explicit
by passing the relevant state (the server document, the auth state, the
Firestore store) as arguments and returning the updated state.
-/

namespace Fridaynz

/-- Task status enum, from `src/lib/types.ts` (`TaskStatus`): exactly the
four values `"Todo" | "In Progress" | "Under Review" | "Completed"`. -/
inductive TaskStatus where
  | todo
  | inProgress
  | underReview
  | completed
deriving DecidableEq, Repr

/-- Comment record, from `src/lib/types.ts` (`Comment`).  Only the fields
read by the embedded operations are kept: `id`, `userId`, `content`
(`userName`, `timestamp`, `taskId`, `mentions` are never inspected by the
merge or permission logic). -/
structure Comment where
  id : String
  userId : String
  content : String
deriving DecidableEq, Repr

/-- Approval record, from `src/lib/types.ts` (`Approval`).  The
`timestamp` field (always rewritten to the current time by
`handleApprove`/`handleReject`) is omitted; the `comment || ''`
normalisation collapses because an absent comment is modelled as `""`. -/
structure Approval where
  partnerId : String
  approved : Bool
  comment : String
deriving DecidableEq, Repr

/-- Subtask record, from `src/lib/types.ts` (`SubTask`); `createdAt`,
`updatedAt`, `description`, `assignedTo` are omitted (never branched on). -/
structure SubTask where
  id : String
  title : String
  completed : Bool
deriving DecidableEq, Repr

/-- Task record, from `src/lib/types.ts` (`Task`).  Scalar fields that the
embedded operations never read (`title`, `description`, `category`,
`priority`, `dueDate`, timestamps, `needsApproval`, `assignee`,
`ownerId`) are omitted.  An absent `subtasks` array is modelled as `[]`. -/
structure Task where
  id : String
  status : TaskStatus
  progress : Nat
  assignedTo : String
  comments : List Comment
  approvals : List Approval
  subtasks : List SubTask
deriving DecidableEq, Repr

/-- Composite duplicate-suppression key used by `updateTask` in
`src/hooks/useAppData.tsx`: the JS template literal
` ${c.id}-${c.content} `. -/
def commentKey (c : Comment) : String :=
  c.id ++ "-" ++ c.content

/-- Per-record comment merge performed by `updateTask` in
`src/hooks/useAppData.tsx` (lines 194-221) when the incoming record's id
matches the mirror record `t`: when both comment lists are non-empty, the
incoming comments whose `(id, content)` key already occurs in the mirror
are filtered out, and if at least one such duplicate was found the result
keeps the mirror's list followed by the remaining incoming comments;
otherwise the incoming record is taken wholesale. -/
def mergeTaskComments (t incoming : Task) : Task :=
  if 0 < incoming.comments.length && 0 < t.comments.length then
    let existingCommentKeys := t.comments.map commentKey
    let uniqueComments :=
      incoming.comments.filter (fun c => !(existingCommentKeys.contains (commentKey c)))
    if uniqueComments.length < incoming.comments.length then
      { incoming with comments := t.comments ++ uniqueComments }
    else incoming
  else incoming

/-- The mirror update `updateTask` from `src/hooks/useAppData.tsx`:
`setTasks(prev => prev.map(t => ...))`, replacing the record whose id
matches the incoming one by the comment-merged record. -/
def updateTask (tasks : List Task) (incoming : Task) : List Task :=
  tasks.map (fun t => if t.id == incoming.id then mergeTaskComments t incoming else t)

/-- Modelled from the spec (section 4.4, for comparison with the code):
"the merged list = server list, plus any entries present in the optimistic
list whose `(id, content)` composite key does not match any server
entry." -/
def specMergedComments (serverComments optimisticComments : List Comment) : List Comment :=
  serverComments ++
    optimisticComments.filter
      (fun c => !((serverComments.map commentKey).contains (commentKey c)))

/-- The fixed status→progress table (Todo=0, In Progress=33,
Under Review=66, Completed=100).  The same `switch` appears verbatim in
`updateTasksProgress` and in `handleStatusChange` in the TaskBoard
component (`src/unnamed/part_004`). -/
def progressForStatus : TaskStatus → Nat
  | .todo => 0
  | .inProgress => 33
  | .underReview => 66
  | .completed => 100

/-- The remote patch `updateData` built by `handleStatusChange`
(`serverTimestamp()` omitted). -/
structure StatusUpdateData where
  status : TaskStatus
  progress : Nat
deriving DecidableEq, Repr

/-- The TaskBoard `handleStatusChange` (`src/unnamed/part_004`, lines
450-495): computes `newProgress` from the status→progress `switch`
(initialised to `task.progress`, but every one of the four `TaskStatus`
values is a labelled case, so the `default` branch keeping the old value
is unreachable), then writes both the Firestore patch `updateData` and
the optimistic local record `updatedTask`. -/
def handleStatusChange (task : Task) (newStatus : TaskStatus) : StatusUpdateData × Task :=
  let newProgress :=
    match newStatus with
    | .todo => 0
    | .inProgress => 33
    | .underReview => 66
    | .completed => 100
  (⟨newStatus, newProgress⟩, { task with status := newStatus, progress := newProgress })

/-- The TaskBoard effect `updateTasksProgress` (`src/unnamed/part_004`,
lines 101-147): every task whose `progress` disagrees with the
status→progress table is rewritten (remotely and via `onTaskUpdate`)
with the expected value; matching tasks are left alone. -/
def updateTasksProgress (tasks : List Task) : List Task :=
  tasks.map (fun task =>
    if task.progress ≠ progressForStatus task.status then
      { task with progress := progressForStatus task.status }
    else task)

/-- The replace-or-append block shared verbatim by `handleApprove` and
`handleReject` (`src/unnamed/part_004`): `findIndex` on `partnerId`,
in-place assignment at the found index, else append. -/
def upsertApproval (approvals : List Approval) (a : Approval) : List Approval :=
  match approvals.findIdx? (fun x => x.partnerId == a.partnerId) with
  | some i => approvals.set i a
  | none => approvals ++ [a]

/-- Structural-recursion reformulation of `upsertApproval` (replace the
first entry with the same `partnerId`, else append at the end); proved
equal to `upsertApproval` below and used only to drive inductions. -/
def upsertAux : List Approval → Approval → List Approval
  | [], a => [a]
  | x :: xs, a =>
    if x.partnerId == a.partnerId then a :: xs else x :: upsertAux xs a

/-- The TaskBoard `handleApprove` (`src/unnamed/part_004`, lines 154-202),
applied to the freshly fetched server record `currentTask`: upserts the
formatted approval, then moves a `Todo` task to `In Progress` when the
count of approving entries reaches the team-member count
(`teamMemberCount`). -/
def handleApprove (currentTask : Task) (approval : Approval) (teamMemberCount : Nat) : Task :=
  let newApprovals := upsertApproval currentTask.approvals approval
  let approvedCount := (newApprovals.filter (fun a => a.approved)).length
  let allApproved := teamMemberCount ≤ approvedCount
  { currentTask with
    approvals := newApprovals
    status :=
      if allApproved && (currentTask.status == .todo) then .inProgress
      else currentTask.status }

/-- The TaskBoard `handleReject` (`src/unnamed/part_004`, lines 253-295),
applied to the freshly fetched server record: same upsert, no status
change. -/
def handleReject (currentTask : Task) (approval : Approval) : Task :=
  { currentTask with approvals := upsertApproval currentTask.approvals approval }

/-- The toggle mapping inside `handleToggleSubtask`
(`src/unnamed/part_007`, lines 126-147): flip `completed` of the subtask
with the given id. -/
def toggleSubtasks (subtasks : List SubTask) (subtaskId : String) : List SubTask :=
  subtasks.map (fun st =>
    if st.id == subtaskId then { st with completed := !st.completed } else st)

/-- The SubTaskManager `updateTaskInFirestore` (`src/unnamed/part_007`,
lines 42-84).  `server` is the current `tasks/{task.id}` document
(`none` = absent, in which case the function throws and nothing is
written, modelled as `none`).  On success it writes
`{ subtasks: updatedTask.subtasks }` to the server document and hands the
local mirror `{ ...task, subtasks: deep clone of updatedTask.subtasks }`
to `onUpdate` (deep cloning is the identity under value semantics).  Note
that the freshly fetched `currentData` is bound but never used: the
written list is `updatedTask.subtasks`, computed by the caller from the
local `task` prop. -/
def updateTaskInFirestore (server : Option Task) (task updatedTask : Task) :
    Option (Task × Task) :=
  match server with
  | none => none
  | some serverDoc =>
    some ({ serverDoc with subtasks := updatedTask.subtasks },
          { task with subtasks := updatedTask.subtasks })

/-- The SubTaskManager `handleToggleSubtask` (`src/unnamed/part_007`,
lines 126-147): builds the toggled list from the component's `task` prop
and passes it to `updateTaskInFirestore`.  (The early return when
`task.subtasks` is undefined is subsumed by modelling an absent array as
`[]`.)  Returns `(new server document, new local record)` on success. -/
def handleToggleSubtask (server : Option Task) (task : Task) (subtaskId : String) :
    Option (Task × Task) :=
  updateTaskInFirestore server task
    { task with subtasks := toggleSubtasks task.subtasks subtaskId }

/-- Conversation record, from `src/lib/types.ts` (`Conversation`).
`name` and `lastMessageAt` are omitted (never branched on by the
direct-message logic); message payloads are abstracted to strings. -/
structure Conversation where
  id : String
  participants : List String
  isGroup : Bool
  messages : List String
deriving DecidableEq, Repr

/-- The existing-conversation lookup inside `handleCreateDirectMessage`
(`src/components/MessagingPanel.tsx`, lines 336-411):
`conversations.find(conv => !conv.isGroup &&
conv.participants.includes(currentUserId) &&
conv.participants.includes(recipientId))`. -/
def findExistingDirect (conversations : List Conversation)
    (currentUserId recipientId : String) : Option Conversation :=
  conversations.find? (fun conv =>
    !conv.isGroup && conv.participants.contains currentUserId
      && conv.participants.contains recipientId)

/-- The MessagingPanel `handleCreateDirectMessage`
(`src/components/MessagingPanel.tsx`, lines 336-411): returns early when
the recipient is the current user, reuses an existing non-group
conversation containing both ids, and otherwise prepends a fresh
two-participant non-group conversation.  `newId` stands for the Firestore
document id on the success path or the `temp-` uuid of the local fallback
path (both paths prepend the same record shape).  Returns the new
conversation list and the conversation made active. -/
def handleCreateDirectMessage (conversations : List Conversation)
    (currentUserId recipientId newId : String) :
    List Conversation × Option Conversation :=
  if recipientId == currentUserId then (conversations, none)
  else
    match findExistingDirect conversations currentUserId recipientId with
    | some existing => (conversations, some existing)
    | none =>
      let newConversation : Conversation :=
        { id := newId
          participants := [currentUserId, recipientId]
          isGroup := false
          messages := [] }
      (newConversation :: conversations, some newConversation)

/-- The invariant of spec section 3 on conversations: every non-group
conversation has exactly two participants, and no two non-group
conversations have the same participant set (unordered pair). -/
def DirectPairInv (conversations : List Conversation) : Prop :=
  (∀ c ∈ conversations, c.isGroup = false → c.participants.length = 2) ∧
  List.Pairwise
    (fun c1 c2 => c1.isGroup = false → c2.isGroup = false →
      ¬(∀ x, x ∈ c1.participants ↔ x ∈ c2.participants))
    conversations

/-- Firebase Auth state as seen by `registerUser`: the set of existing
account uids and the currently signed-in uid (if any). -/
structure AuthState where
  users : List String
  currentUser : Option String
deriving DecidableEq, Repr

/-- The `registerUser` two-phase account creation (`src/unnamed/part_008`,
lines 194-242).  `newUid` is the uid minted by
`createUserWithEmailAndPassword` (which also signs the new user in);
`profileError = some e` means `createUserProfile` rejected with error
`e`; `rollbackOk = false` means the compensating `deleteUser` call itself
failed (it is then only logged, not retried).  On success the initial
user is restored (`updateCurrentUser`) or, when there was none, the new
user is signed out; on profile failure the catch block deletes
`auth.currentUser` provided it exists and differs from the initial user,
then rethrows the original error. -/
def registerUser (st : AuthState) (newUid : String) (profileError : Option String)
    (rollbackOk : Bool) : Except String String × AuthState :=
  let initialUser := st.currentUser
  let afterCreate : AuthState := ⟨st.users ++ [newUid], some newUid⟩
  match profileError with
  | none => (.ok newUid, { afterCreate with currentUser := initialUser })
  | some e =>
    match afterCreate.currentUser with
    | some newUser =>
      if initialUser.isNone || initialUser != some newUser then
        if rollbackOk then (.error e, ⟨afterCreate.users.erase newUser, none⟩)
        else (.error e, afterCreate)
      else (.error e, afterCreate)
    | none => (.error e, afterCreate)

/-- State of the express relay in `server/index.js`: whether the Firebase
Admin SDK initialised, the uids known to the auth service, and the
`users` collection profiles as `(uid, userRole)` pairs. -/
structure ServerState where
  adminInitialized : Bool
  authUsers : List String
  profiles : List (String × String)
deriving DecidableEq, Repr

/-- Body of a POST to `/api/delete-user`; a missing JSON field
destructures to `undefined`, modelled as `none`. -/
structure DeleteUserRequest where
  userId : Option String
  adminId : Option String
deriving DecidableEq, Repr

/-- The `/api/delete-user` handler (`server/index.js`, lines 96-136).
Returns the HTTP status and the resulting state.  `admin.auth().getUser`
throws on a missing or unknown uid and `admin.auth().deleteUser` throws
on a missing or unknown uid; both throws land in the catch block, which
answers 500.  The 403 branch fires when the `users/{adminId}` profile is
absent or its `userRole` is not `'admin'`; success answers 200 via
`res.json`. -/
def deleteUserEndpoint (st : ServerState) (body : DeleteUserRequest) :
    Nat × ServerState :=
  if st.adminInitialized = false then (500, st)
  else
    match body.adminId with
    | none => (500, st)
    | some adminId =>
      if st.authUsers.contains adminId = false then (500, st)
      else
        match st.profiles.lookup adminId with
        | none => (403, st)
        | some role =>
          if role ≠ "admin" then (403, st)
          else
            match body.userId with
            | none => (500, st)
            | some userId =>
              if st.authUsers.contains userId then
                (200, { st with authUsers := st.authUsers.erase userId })
              else (500, st)

/-- A Firestore document as read by the generic document layer in
`src/unnamed/part_008`.  Only fields the layer inspects are kept:
`assignedTo` and `comments` (task documents), `userRole` (user profile
documents), plus the patchable `status`. -/
structure DocData where
  assignedTo : Option String := none
  comments : List Comment := []
  userRole : Option String := none
  status : Option String := none
deriving DecidableEq, Repr

/-- A Firestore store: documents keyed by `(collection, id)`. -/
abbrev Store := List ((String × String) × DocData)

/-- Document lookup (`getDoc` + `exists()`): `none` means the document is
absent. -/
def lookupDoc (store : Store) (collectionName id : String) : Option DocData :=
  (store.find? (fun e => e.1 == (collectionName, id))).map Prod.snd

/-- Document write (`updateDoc`/`setDoc` result): replaces the document
at the key. -/
def writeDoc (store : Store) (collectionName id : String) (d : DocData) : Store :=
  ((collectionName, id), d) :: store.filter (fun e => !(e.1 == (collectionName, id)))

/-- A partial update passed to `updateDocument`; `none` fields are absent
from the patch (`!== undefined` tests model as `Option.isSome`). -/
structure UpdatePatch where
  status : Option String := none
  comments : Option (List Comment) := none
deriving DecidableEq, Repr

/-- Field-level application of a patch by `updateDoc`: fields present in
the patch replace the stored ones, absent fields are untouched
(`updatedAt`/`updatedBy` metadata omitted). -/
def applyPatch (d : DocData) (p : UpdatePatch) : DocData :=
  { d with
    status := match p.status with | some s => some s | none => d.status
    comments := p.comments.getD d.comments }

/-- The `getUserProfile(uid)?.userRole === 'admin'` check used by
`updateDocument` in `src/unnamed/part_008`. -/
def isAdminOf (store : Store) (uid : String) : Bool :=
  match lookupDoc store "users" uid with
  | some d => d.userRole == some "admin"
  | none => false

/-- The comment filter inside `updateDocument` (`src/unnamed/part_008`,
lines 431-447): an incoming comment is kept only when authored by the
calling user or matching the id of an existing comment owned by the
caller. -/
def allowedComments (uid : String) (existingComments incoming : List Comment) :
    List Comment :=
  incoming.filter (fun c =>
    c.userId == uid
      || existingComments.any (fun ec => ec.id == c.id && ec.userId == uid))

/-- The merged comments list written by `updateDocument` for the `tasks`
collection (`src/unnamed/part_008`, the line `data = { ...data, comments:
[...existingComments, ...newComments] }`). -/
def mergedTaskComments (uid : String) (existingComments incoming : List Comment) :
    List Comment :=
  existingComments ++ allowedComments uid existingComments incoming

/-- The generic `updateDocument` (`src/unnamed/part_008`, lines 416-462):
`checkAuth` throws when nobody is signed in; a missing target document
throws `'Document not found'`; for the `tasks` collection a status patch
from a non-assignee non-admin throws, and a comments patch is rewritten
to the stored list concatenated with the `allowedComments` filter of the
incoming list; finally the (rewritten) patch is applied and written. -/
def updateDocument (store : Store) (authUser : Option String)
    (collectionName id : String) (patch : UpdatePatch) : Except String Store :=
  match authUser with
  | none => .error "User must be authenticated to perform this operation"
  | some uid =>
    match lookupDoc store collectionName id with
    | none => .error "Document not found"
    | some currentData =>
      if collectionName == "tasks" && patch.status.isSome
          && currentData.assignedTo != some uid && !(isAdminOf store uid) then
        .error "You can only update the status of your own tasks"
      else
        let patch2 :=
          if collectionName == "tasks" then
            match patch.comments with
            | some incoming =>
              { patch with
                comments :=
                  some (mergedTaskComments uid currentData.comments incoming) }
            | none => patch
          else patch
        .ok (writeDoc store collectionName id (applyPatch currentData patch2))

/-- The generic `getDocument` (`src/unnamed/part_008`, lines 399-414): a
missing document returns `null` (here `.ok none`), not an error. -/
def getDocument (store : Store) (collectionName id : String) :
    Except String (Option DocData) :=
  .ok (lookupDoc store collectionName id)

/-- The generic `deleteDocument` (`src/unnamed/part_008`, lines 465-474):
calls `deleteDoc` directly, with no existence check — deleting an absent
id is a successful no-op. -/
def deleteDocument (store : Store) (collectionName id : String) :
    Except String Store :=
  .ok (store.filter (fun e => !(e.1 == (collectionName, id))))

/-- The first thing that happens to the promise made by
`ensureAuthenticated` once no user was already present: either the
one-shot `onAuthStateChanged` listener fires (with the new auth state),
or the 5-second timer fires first. -/
inductive AuthEvent where
  | callback (user : Option String)
  | timedOut
deriving DecidableEq, Repr

/-- Observable outcome of `ensureAuthenticated`: how the promise settled,
whether a listener was registered, and whether it was unsubscribed. -/
structure WaitResult where
  outcome : Except String String
  listenerRegistered : Bool
  unsubscribed : Bool
deriving Repr

/-- The timeout constant of `ensureAuthenticated` in
`src/hooks/useAuth.ts`: `setTimeout(..., 5000)`. -/
def authTimeoutMs : Nat := 5000

/-- The `ensureAuthenticated` helper (`src/hooks/useAuth.ts`, lines
99-123): resolves immediately (registering no listener) when
`auth.currentUser` is set; otherwise registers a listener and settles on
the first event — a callback with a user resolves, a callback with no
user rejects, and the `authTimeoutMs` timer rejects with
`'Authentication check timed out'`; the listener is unsubscribed in every
one of those branches. -/
def ensureAuthenticated (currentUser : Option String) (firstEvent : AuthEvent) :
    WaitResult :=
  match currentUser with
  | some u => ⟨.ok u, false, false⟩
  | none =>
    match firstEvent with
    | .callback (some u) => ⟨.ok u, true, true⟩
    | .callback none => ⟨.error "User is not authenticated", true, true⟩
    | .timedOut => ⟨.error "Authentication check timed out", true, true⟩

/-- Sample comment A of spec section 8 property 2. -/
def commentA : Comment := ⟨"a1", "user1", "first comment"⟩

/-- Sample comment B of spec section 8 property 2. -/
def commentB : Comment := ⟨"b1", "user2", "second comment"⟩

/-- Sample comment C of spec section 8 property 2 (the optimistically
appended one). -/
def commentC : Comment := ⟨"c1", "user1", "third comment"⟩

/-- A baseline task used to build concrete scenarios. -/
def baseTask : Task :=
  { id := "task1"
    status := .todo
    progress := 0
    assignedTo := "user1"
    comments := []
    approvals := []
    subtasks := [] }

/-- A single incomplete subtask, for the toggle scenario. -/
def sampleSubtask : SubTask := ⟨"s1", "write tests", false⟩

/-- The task holding `sampleSubtask`, used as both the server document and
the component's (stale) `task` prop in the back-to-back toggle scenario. -/
def taskWithSubtask : Task := { baseTask with subtasks := [sampleSubtask] }

/-- A relay state with the Admin SDK initialised, two auth accounts and
one admin profile. -/
def serverStateOk : ServerState :=
  ⟨true, ["admin1", "user2"], [("admin1", "admin")]⟩

/-- A one-task store for the `updateDocument` comment scenario. -/
def storeWithTask : Store :=
  [(("tasks", "t1"),
    { assignedTo := some "user1", comments := [commentA] })]

/-- Claim C3: for every task and each of the four status values,
`handleStatusChange` computes progress from the fixed mapping (Todo=0,
In Progress=33, Under Review=66, Completed=100) and writes that value
into both the Firestore patch and the optimistic local record, so status
and progress never diverge; moreover `updateTasksProgress` leaves every
task with progress equal to the mapping of its status. -/
theorem status_change_progress_consistent (task : Task) (newStatus : TaskStatus)
    (tasks : List Task) :
    (handleStatusChange task newStatus).1.progress = progressForStatus newStatus ∧
    (handleStatusChange task newStatus).2.progress = progressForStatus newStatus ∧
    (handleStatusChange task newStatus).1.status = newStatus ∧
    (handleStatusChange task newStatus).2.status = newStatus ∧
    ∀ t ∈ updateTasksProgress tasks, t.progress = progressForStatus t.status := by
  refine ⟨?_, ?_, rfl, rfl, ?_⟩
  · cases newStatus <;> rfl
  · cases newStatus <;> rfl
  · intro t ht
    simp only [updateTasksProgress, List.mem_map] at ht
    obtain ⟨u, -, rfl⟩ := ht
    by_cases h : u.progress = progressForStatus u.status <;> simp [h]

/-- Claim C4 (code bug): subtask mutations do not compute the new list
against the freshly fetched server copy.  `updateTaskInFirestore` fetches
the server document but writes `updatedTask.subtasks`, computed by
`handleToggleSubtask` from the component's local `task` prop (third
conjunct: the written list never depends on the fetched document).  Two
back-to-back toggles of subtask `s1` — the second issued while the local
prop is still the pre-toggle record — leave the server copy with
`completed = true`, although two toggles observing each other must
restore `completed = false`. -/
theorem toggle_subtask_lost_update :
    (((handleToggleSubtask (some taskWithSubtask) taskWithSubtask "s1").bind
        (fun r => handleToggleSubtask (some r.1) taskWithSubtask "s1")).map
      (fun r => r.1.subtasks.map SubTask.completed)) = some [true] ∧
    ([true] ≠ [false]) ∧
    ∀ (d t u : Task),
      (updateTaskInFirestore (some d) t u).map (fun r => r.1.subtasks) =
        some u.subtasks := by
  exact ⟨by decide, by decide, fun d t u => rfl⟩

/-- Claim C9: `ensureAuthenticated` resolves immediately (registering no
listener) when an identity is present; resolves when an identity arrives
via the auth-state callback; rejects on the 5000 ms timeout rather than
hanging; and every registered listener has been unsubscribed once the
promise settles. -/
theorem ensure_authenticated_behaviour (currentUser : Option String)
    (e : AuthEvent) :
    (∀ u, currentUser = some u →
      ensureAuthenticated currentUser e = ⟨.ok u, false, false⟩) ∧
    (∀ u, currentUser = none → e = .callback (some u) →
      (ensureAuthenticated currentUser e).outcome = .ok u) ∧
    (currentUser = none → e = .timedOut →
      (ensureAuthenticated currentUser e).outcome =
        .error "Authentication check timed out") ∧
    authTimeoutMs = 5000 ∧
    ((ensureAuthenticated currentUser e).listenerRegistered = true →
      (ensureAuthenticated currentUser e).unsubscribed = true) := by
  refine ⟨?_, ?_, ?_, rfl, ?_⟩
  · rintro u rfl
    rfl
  · rintro u rfl rfl
    rfl
  · rintro rfl rfl
    rfl
  · cases currentUser with
    | some u => intro h; exact h
    | none => rcases e with ⟨_ | u⟩ | _ <;> intro _ <;> rfl

/-- Witness for claim C9: with no identity present and the timer firing
first, `ensureAuthenticated` rejects with the timeout error. -/
theorem ensure_authenticated_behaviour_witness :
    (ensureAuthenticated none AuthEvent.timedOut).outcome =
      .error "Authentication check timed out" :=
  (ensure_authenticated_behaviour none AuthEvent.timedOut).2.2.1 rfl rfl

/-- Claim C7 counterexample: a request with a missing `adminId` field —
sent to a relay whose Admin SDK is initialised and which knows an admin —
is answered with 500, not the 400 the claim requires for missing fields
(the handler has no missing-field check; `getUser(undefined)` throws into
the catch block). -/
theorem delete_user_missing_field_not_400 :
    (deleteUserEndpoint serverStateOk ⟨some "user2", none⟩).1 = 500 ∧
    (deleteUserEndpoint serverStateOk ⟨some "user2", none⟩).1 ≠ 400 := by
  exact ⟨by decide, by decide⟩

/-- Claim C7 (amended): the delete-user endpoint answers 200 on
successful deletion, 403 when the supplied adminId names an auth account
whose profile is missing or not admin-tier, and 500 in every other case —
on unexpected failure, when the Admin SDK is uninitialised, and when the
`userId` or `adminId` field is missing or unknown (the lookups throw);
there is no 400 response. -/
theorem delete_user_endpoint_statuses (st : ServerState) (body : DeleteUserRequest) :
    ((deleteUserEndpoint st body).1 = 200 ∨ (deleteUserEndpoint st body).1 = 403 ∨
      (deleteUserEndpoint st body).1 = 500) ∧
    (st.adminInitialized = false → (deleteUserEndpoint st body).1 = 500) ∧
    (body.adminId = none → (deleteUserEndpoint st body).1 = 500) ∧
    (∀ adminId, body.adminId = some adminId →
      st.authUsers.contains adminId = false → (deleteUserEndpoint st body).1 = 500) ∧
    (∀ adminId, st.adminInitialized = true → body.adminId = some adminId →
      st.authUsers.contains adminId = true →
      (∀ r, st.profiles.lookup adminId = some r → r ≠ "admin") →
      (deleteUserEndpoint st body).1 = 403) ∧
    (∀ adminId, st.adminInitialized = true → body.adminId = some adminId →
      st.authUsers.contains adminId = true →
      st.profiles.lookup adminId = some "admin" → body.userId = none →
      (deleteUserEndpoint st body).1 = 500) ∧
    (∀ adminId userId, st.adminInitialized = true → body.adminId = some adminId →
      st.authUsers.contains adminId = true →
      st.profiles.lookup adminId = some "admin" → body.userId = some userId →
      st.authUsers.contains userId = true →
      (deleteUserEndpoint st body).1 = 200) := by
  refine ⟨?_, ?_, ?_, ?_, ?_, ?_, ?_⟩
  · unfold deleteUserEndpoint
    rcases st.adminInitialized with _ | _
    · simp
    · rcases body.adminId with _ | adminId
      · simp
      · by_cases hca : adminId ∈ st.authUsers
        · rcases hl : st.profiles.lookup adminId with _ | role
          · simp [hca, hl]
          · by_cases hr : role = "admin"
            · rcases body.userId with _ | userId
              · simp [hca, hl, hr]
              · by_cases hcu : userId ∈ st.authUsers <;>
                  simp [hca, hl, hr, hcu]
            · simp [hca, hl, hr]
        · simp [hca]
  · intro h
    simp [deleteUserEndpoint, h]
  · intro h
    cases hinit : st.adminInitialized <;> simp [deleteUserEndpoint, h, hinit]
  · intro adminId hb hca
    have hca' : adminId ∉ st.authUsers := by simpa using hca
    cases hinit : st.adminInitialized <;>
      simp [deleteUserEndpoint, hb, hca', hinit]
  · intro adminId hinit hb hca hprof
    have hca' : adminId ∈ st.authUsers := by simpa using hca
    rcases hl : st.profiles.lookup adminId with _ | role
    · simp [deleteUserEndpoint, hinit, hb, hca', hl]
    · simp [deleteUserEndpoint, hinit, hb, hca', hl, hprof role hl]
  · intro adminId hinit hb hca hl hu
    have hca' : adminId ∈ st.authUsers := by simpa using hca
    simp [deleteUserEndpoint, hinit, hb, hca', hl, hu]
  · intro adminId userId hinit hb hca hl hu hcu
    have hca' : adminId ∈ st.authUsers := by simpa using hca
    have hcu' : userId ∈ st.authUsers := by simpa using hcu
    simp [deleteUserEndpoint, hinit, hb, hca', hl, hu, hcu']

/-- Witness for claim C7 (amended): an admin-authorised deletion of a
known account answers 200. -/
theorem delete_user_endpoint_statuses_witness :
    (deleteUserEndpoint serverStateOk ⟨some "user2", some "admin1"⟩).1 = 200 :=
  (delete_user_endpoint_statuses serverStateOk
      ⟨some "user2", some "admin1"⟩).2.2.2.2.2.2 "admin1" "user2"
    rfl rfl (by decide) (by decide) rfl (by decide)

/-- Claim C8 counterexample: `deleteDocument` targeting a non-existent id
succeeds (`.ok`) — it performs no existence check — whereas the claim
says such a delete raises an error. -/
theorem delete_document_missing_succeeds :
    deleteDocument ([] : Store) "tasks" "ghost" = .ok ([] : Store) := rfl

/-- Claim C8 (amended): for every collection and document id, a read of a
non-existent document returns a null result (`.ok none`) rather than an
error, and an update targeting a non-existent id raises the
`'Document not found'` error; a delete targeting a non-existent id
performs no existence check and succeeds. -/
theorem document_absence_semantics (store : Store) (coll id uid : String)
    (p : UpdatePatch) (habs : lookupDoc store coll id = none) :
    getDocument store coll id = .ok none ∧
    updateDocument store (some uid) coll id p = .error "Document not found" ∧
    ∃ s, deleteDocument store coll id = .ok s := by
  refine ⟨?_, ?_, ⟨_, rfl⟩⟩
  · simp [getDocument, habs]
  · simp [updateDocument, habs]

/-- Witness for claim C8 (amended): reading a missing document from the
empty store yields `.ok none`. -/
theorem document_absence_semantics_witness :
    getDocument ([] : Store) "tasks" "ghost" = .ok none :=
  (document_absence_semantics [] "tasks" "ghost" "user1" {} rfl).1

/-- Claim C6: when `createUserProfile` fails after
`createUserWithEmailAndPassword` succeeded, `registerUser`'s catch block
deletes the newly created identity — no orphaned auth record remains and
nobody stays signed in as it — and rethrows the original error; when the
rollback delete itself fails it is only logged, and the original error is
still the one propagated. -/
theorem register_user_rollback (st : AuthState) (newUid e : String)
    (hfresh : newUid ∉ st.users) (hcur : st.currentUser ≠ some newUid) :
    (registerUser st newUid (some e) true).1 = .error e ∧
    newUid ∉ (registerUser st newUid (some e) true).2.users ∧
    (registerUser st newUid (some e) true).2.currentUser = none ∧
    (registerUser st newUid (some e) false).1 = .error e := by
  have hcond : (st.currentUser.isNone || st.currentUser != some newUid) = true := by
    cases hc : st.currentUser with
    | none => rfl
    | some x =>
      have hx : x ≠ newUid := by
        intro hx
        exact hcur (by rw [hc, hx])
      simp [hx]
  have herase : (st.users ++ [newUid]).erase newUid = st.users := by
    rw [List.erase_append_right _ hfresh, List.erase_cons_head, List.append_nil]
  refine ⟨?_, ?_, ?_, ?_⟩ <;>
    simp [registerUser, hcond, herase, hfresh]

/-- Witness for claim C6: an admin session registering `u2` whose profile
write fails with `profile write failed` sees that error propagated. -/
theorem register_user_rollback_witness :
    (registerUser ⟨["admin1"], some "admin1"⟩ "u2"
        (some "profile write failed") true).1 = .error "profile write failed" :=
  (register_user_rollback ⟨["admin1"], some "admin1"⟩ "u2" "profile write failed"
    (by decide) (by decide)).1

/-- Helper: the per-record merge of `updateTask` yields either the
incoming record's comment list unchanged, or the mirror list followed by
the incoming comments whose key is absent from the mirror. -/
theorem mergeTaskComments_comments_cases (t incoming : Task) :
    (mergeTaskComments t incoming).comments = incoming.comments ∨
    (mergeTaskComments t incoming).comments =
      t.comments ++ incoming.comments.filter
        (fun c => !((t.comments.map commentKey).contains (commentKey c))) := by
  simp only [mergeTaskComments]
  split
  · split
    · right; rfl
    · left; rfl
  · left; rfl

/-- Claim C1 counterexample: with a mirror record holding optimistic
comments `[C]` and an incoming server record holding `[A]`, `updateTask`
keeps `[A]` and drops the optimistic `C`, whereas the claim's merged list
(server list plus unmatched optimistic entries) would be `[A, C]`. -/
theorem update_task_merge_counterexample :
    (updateTask [{ baseTask with comments := [commentC] }]
        { baseTask with comments := [commentA] }).map Task.comments
      = [[commentA]] ∧
    specMergedComments [commentA] [commentC] = [commentA, commentC] ∧
    [[commentA]] ≠ [[commentA, commentC]] :=
  ⟨by decide, by decide, by decide⟩

/-- Claim C1 (amended): `updateTask` merges in the mirror-first
direction — unmatched mirror (optimistic) entries are kept only when at
least one incoming entry duplicates a mirror entry, and otherwise the
incoming list replaces the mirror's wholesale, so an optimistic entry
absent from the incoming snapshot can be dropped (see the
counterexample).  What does hold: when mirror and incoming comment keys
are each duplicate-free, the merged list has no `(id, content)` key
twice, every incoming (server) entry's key survives, every merged entry
comes from the mirror or the incoming list, and the spec's concrete
scenario — mirror `[A,B,C]` with `C` optimistically appended, incoming
snapshot `[A,B,C]` — yields exactly `[A,B,C]` with no duplicate `C`. -/
theorem update_task_merge_amended (t incoming : Task)
    (ht : (t.comments.map commentKey).Nodup)
    (hinc : (incoming.comments.map commentKey).Nodup)
    (hid : t.id = incoming.id) :
    updateTask [t] incoming = [mergeTaskComments t incoming] ∧
    ((mergeTaskComments t incoming).comments.map commentKey).Nodup ∧
    (∀ c ∈ incoming.comments,
      commentKey c ∈ (mergeTaskComments t incoming).comments.map commentKey) ∧
    (∀ c ∈ (mergeTaskComments t incoming).comments,
      c ∈ t.comments ∨ c ∈ incoming.comments) ∧
    (updateTask [{ baseTask with comments := [commentA, commentB, commentC] }]
        { baseTask with comments := [commentA, commentB, commentC] }).map
      Task.comments = [[commentA, commentB, commentC]] := by
  have hup : updateTask [t] incoming = [mergeTaskComments t incoming] := by
    simp [updateTask, hid]
  rcases mergeTaskComments_comments_cases t incoming with hm | hm
  · refine ⟨hup, ?_, ?_, ?_, by decide⟩
    · rw [hm]; exact hinc
    · intro c hc
      rw [hm]
      exact List.mem_map_of_mem _ hc
    · intro c hc
      rw [hm] at hc
      exact Or.inr hc
  · refine ⟨hup, ?_, ?_, ?_, by decide⟩
    · rw [hm, List.map_append]
      refine List.Nodup.append ht ?_ ?_
      · exact List.Nodup.sublist ((List.filter_sublist _).map _) hinc
      · intro a ha hafil
        rcases List.mem_map.mp hafil with ⟨c, hcf, rfl⟩
        rcases List.mem_filter.mp hcf with ⟨hcin, hp⟩
        simp only [Bool.not_eq_true'] at hp
        have : commentKey c ∉ t.comments.map commentKey := by simpa using hp
        exact this ha
    · intro c hc
      rw [hm, List.map_append]
      by_cases hk : commentKey c ∈ t.comments.map commentKey
      · exact List.mem_append_left _ hk
      · refine List.mem_append_right _ ?_
        refine List.mem_map_of_mem _ ?_
        refine List.mem_filter.mpr ⟨hc, ?_⟩
        simpa using hk
    · intro c hc
      rw [hm] at hc
      rcases List.mem_append.mp hc with h | h
      · exact Or.inl h
      · exact Or.inr (List.mem_filter.mp h).1

/-- Witness for claim C1 (amended): the reconciled `[A,B,C]` record has
duplicate-free comment keys. -/
theorem update_task_merge_amended_witness :
    ((mergeTaskComments { baseTask with comments := [commentA, commentB, commentC] }
        { baseTask with comments := [commentA, commentB, commentC] }).comments.map
      commentKey).Nodup :=
  (update_task_merge_amended _ _ (by decide) (by decide) rfl).2.1

/-- Helper: the `findIndex`-and-assign upsert coincides with the
structural replace-first-or-append recursion. -/
theorem upsertApproval_eq_aux (l : List Approval) (a : Approval) :
    upsertApproval l a = upsertAux l a := by
  induction l with
  | nil => rfl
  | cons x xs ih =>
    unfold upsertApproval upsertAux
    rw [List.findIdx?_cons]
    by_cases h : x.partnerId == a.partnerId
    · simp [h]
    · simp only [h, if_neg, Bool.false_eq_true, not_false_eq_true, if_false]
      unfold upsertApproval at ih
      rcases hfind : xs.findIdx? (fun x => x.partnerId == a.partnerId) with _ | i
      · rw [hfind] at ih
        simp [hfind, ← ih]
      · rw [hfind] at ih
        simp [hfind, ← ih, List.set_cons_succ]

/-- Helper: every approver id after an upsert was already present or is
the upserted approver's id. -/
theorem upsertAux_ids_subset (l : List Approval) (a : Approval) (q : String)
    (hq : q ∈ (upsertAux l a).map Approval.partnerId) :
    q ∈ l.map Approval.partnerId ∨ q = a.partnerId := by
  induction l with
  | nil =>
    simp only [upsertAux, List.map_cons, List.map_nil, List.mem_singleton] at hq
    exact Or.inr hq
  | cons x xs ih =>
    unfold upsertAux at hq
    by_cases h : x.partnerId == a.partnerId
    · rw [if_pos h] at hq
      rcases List.mem_map.mp hq with ⟨b, hb, rfl⟩
      rcases List.mem_cons.mp hb with rfl | hb
      · exact Or.inr rfl
      · exact Or.inl (List.mem_map_of_mem _ (List.mem_cons_of_mem _ hb))
    · rw [if_neg h] at hq
      simp only [List.map_cons, List.mem_cons] at hq
      rcases hq with rfl | hq
      · exact Or.inl (by simp)
      · rcases ih hq with h' | h'
        · exact Or.inl (by simp [h'])
        · exact Or.inr h'

/-- Helper: the upsert preserves duplicate-freeness of approver ids. -/
theorem upsertAux_ids_nodup (l : List Approval) (a : Approval)
    (h : (l.map Approval.partnerId).Nodup) :
    ((upsertAux l a).map Approval.partnerId).Nodup := by
  induction l with
  | nil => simp [upsertAux]
  | cons x xs ih =>
    rw [List.map_cons, List.nodup_cons] at h
    unfold upsertAux
    by_cases hx : x.partnerId == a.partnerId
    · rw [if_pos hx]
      rw [List.map_cons, List.nodup_cons]
      refine ⟨?_, h.2⟩
      have : a.partnerId = x.partnerId := (eq_of_beq hx).symm
      rw [← this] at h
      exact h.1
    · rw [if_neg hx]
      rw [List.map_cons, List.nodup_cons]
      refine ⟨?_, ih h.2⟩
      intro hmem
      rcases upsertAux_ids_subset xs a _ hmem with h' | h'
      · exact h.1 h'
      · exact hx (by rw [h']; simp)

/-- Helper: after an upsert into a duplicate-free list, filtering by the
upserted approver's id yields exactly the upserted entry. -/
theorem upsertAux_filter_eq (l : List Approval) (a : Approval)
    (h : (l.map Approval.partnerId).Nodup) :
    (upsertAux l a).filter (fun x => x.partnerId == a.partnerId) = [a] := by
  induction l with
  | nil => simp [upsertAux]
  | cons x xs ih =>
    rw [List.map_cons, List.nodup_cons] at h
    unfold upsertAux
    by_cases hx : x.partnerId == a.partnerId
    · rw [if_pos hx]
      rw [List.filter_cons_of_pos (by simp)]
      have hxs : xs.filter (fun y => y.partnerId == a.partnerId) = [] := by
        rw [List.filter_eq_nil_iff]
        intro b hb hbeq
        have hba : b.partnerId = a.partnerId := eq_of_beq hbeq
        have hxa : x.partnerId = a.partnerId := eq_of_beq hx
        exact h.1 (by rw [hxa, ← hba]; exact List.mem_map_of_mem _ hb)
      rw [hxs]
    · rw [if_neg hx]
      rw [List.filter_cons_of_neg (by simpa using hx)]
      exact ih h.2

/-- Helper: upserting an approver already present keeps the id list
unchanged (an in-place replacement). -/
theorem upsertAux_ids_of_mem (l : List Approval) (a : Approval)
    (h : a.partnerId ∈ l.map Approval.partnerId) :
    (upsertAux l a).map Approval.partnerId = l.map Approval.partnerId := by
  induction l with
  | nil => simp at h
  | cons x xs ih =>
    unfold upsertAux
    by_cases hx : x.partnerId == a.partnerId
    · rw [if_pos hx]
      simp [eq_of_beq hx]
    · rw [if_neg hx]
      rw [List.map_cons] at h
      have : a.partnerId ∈ xs.map Approval.partnerId := by
        rcases List.mem_cons.mp h with h' | h'
        · exact absurd (by rw [← h']; simp) hx
        · exact h'
      simp [ih this]

/-- Helper: upserting a new approver appends the entry. -/
theorem upsertAux_append_of_not_mem (l : List Approval) (a : Approval)
    (h : a.partnerId ∉ l.map Approval.partnerId) :
    upsertAux l a = l ++ [a] := by
  induction l with
  | nil => rfl
  | cons x xs ih =>
    unfold upsertAux
    by_cases hx : x.partnerId == a.partnerId
    · exact absurd (by simp [eq_of_beq hx]) h
    · rw [if_neg hx]
      have : a.partnerId ∉ xs.map Approval.partnerId := by
        intro h'
        exact h (List.mem_cons_of_mem _ h')
      rw [ih this, List.cons_append]

/-- Claim C2: the approvals list keeps at most one entry per approver
identity across any sequence of `handleApprove`/`handleReject`
submissions — a submission from a present identity replaces that
identity's entry in place (same id multiset), a new identity appends —
and an approve followed by a reject from the same identity leaves exactly
one entry for it, carrying the latest decision. -/
theorem approvals_replace_per_identity (t : Task) (a1 a2 : Approval) (n : Nat)
    (hnd : (t.approvals.map Approval.partnerId).Nodup)
    (_hp : a1.partnerId = a2.partnerId) :
    (((handleApprove t a1 n).approvals.map Approval.partnerId).Nodup) ∧
    (((handleReject (handleApprove t a1 n) a2).approvals.map
        Approval.partnerId).Nodup) ∧
    ((handleReject (handleApprove t a1 n) a2).approvals.filter
        (fun x => x.partnerId == a2.partnerId) = [a2]) ∧
    (a1.partnerId ∈ t.approvals.map Approval.partnerId →
      (handleApprove t a1 n).approvals.map Approval.partnerId =
        t.approvals.map Approval.partnerId) ∧
    (a1.partnerId ∉ t.approvals.map Approval.partnerId →
      (handleApprove t a1 n).approvals = t.approvals ++ [a1]) := by
  have h1 : (handleApprove t a1 n).approvals = upsertAux t.approvals a1 := by
    simp [handleApprove, upsertApproval_eq_aux]
  have h2 : (handleReject (handleApprove t a1 n) a2).approvals =
      upsertAux (upsertAux t.approvals a1) a2 := by
    simp [handleReject, upsertApproval_eq_aux, h1]
  have hnd1 : ((upsertAux t.approvals a1).map Approval.partnerId).Nodup :=
    upsertAux_ids_nodup _ _ hnd
  refine ⟨?_, ?_, ?_, ?_, ?_⟩
  · rw [h1]; exact hnd1
  · rw [h2]; exact upsertAux_ids_nodup _ _ hnd1
  · rw [h2]; exact upsertAux_filter_eq _ _ hnd1
  · intro hmem
    rw [h1]; exact upsertAux_ids_of_mem _ _ hmem
  · intro hmem
    rw [h1]; exact upsertAux_append_of_not_mem _ _ hmem

/-- Witness for claim C2: on a task with no approvals, an approve from
`p1` followed by a reject from `p1` leaves exactly the reject entry. -/
theorem approvals_replace_per_identity_witness :
    (handleReject (handleApprove baseTask ⟨"p1", true, ""⟩ 3)
        ⟨"p1", false, "not ready"⟩).approvals.filter
      (fun x => x.partnerId == "p1") = [⟨"p1", false, "not ready"⟩] :=
  (approvals_replace_per_identity baseTask ⟨"p1", true, ""⟩
    ⟨"p1", false, "not ready"⟩ 3 (by decide) rfl).2.2.1

/-- Claim C5: requesting a direct conversation a second time while one
between the same pair already exists reuses it — the conversation list is
unchanged and the same conversation becomes active — and the operation
preserves the invariant that every non-group conversation has exactly two
participants and no two non-group conversations share the same unordered
participant pair. -/
theorem direct_conversation_unique (conversations : List Conversation)
    (currentUserId recipientId id1 id2 : String)
    (hne : currentUserId ≠ recipientId)
    (hinv : DirectPairInv conversations) :
    (handleCreateDirectMessage
        (handleCreateDirectMessage conversations currentUserId recipientId id1).1
        currentUserId recipientId id2).1 =
      (handleCreateDirectMessage conversations currentUserId recipientId id1).1 ∧
    (handleCreateDirectMessage
        (handleCreateDirectMessage conversations currentUserId recipientId id1).1
        currentUserId recipientId id2).2 =
      (handleCreateDirectMessage conversations currentUserId recipientId id1).2 ∧
    DirectPairInv
      (handleCreateDirectMessage conversations currentUserId recipientId id1).1 := by
  have hne' : (recipientId == currentUserId) = false := by
    simp only [beq_eq_false_iff_ne, ne_eq]
    exact fun h => hne h.symm
  rcases hfind : findExistingDirect conversations currentUserId recipientId
      with _ | c
  · -- no existing conversation: a fresh one is prepended
    have hnew : handleCreateDirectMessage conversations currentUserId recipientId id1
        = (⟨id1, [currentUserId, recipientId], false, []⟩ :: conversations,
           some ⟨id1, [currentUserId, recipientId], false, []⟩) := by
      simp [handleCreateDirectMessage, hne', hfind]
    have hpred : (fun conv => !conv.isGroup
          && conv.participants.contains currentUserId
          && conv.participants.contains recipientId)
        (⟨id1, [currentUserId, recipientId], false, []⟩ : Conversation) = true := by
      simp
    have hfind2 : findExistingDirect
        (⟨id1, [currentUserId, recipientId], false, []⟩ :: conversations)
        currentUserId recipientId
        = some ⟨id1, [currentUserId, recipientId], false, []⟩ := by
      unfold findExistingDirect
      exact List.find?_cons_of_pos _ hpred
    have hnone : ∀ x ∈ conversations,
        ¬(!x.isGroup && x.participants.contains currentUserId
            && x.participants.contains recipientId) = true := by
      intro x hx
      exact List.find?_eq_none.mp hfind x hx
    refine ⟨?_, ?_, ?_⟩
    · rw [hnew]
      simp [handleCreateDirectMessage, hne', hfind2]
    · rw [hnew]
      simp [handleCreateDirectMessage, hne', hfind2]
    · rw [hnew]
      constructor
      · intro c hc hcg
        rcases List.mem_cons.mp hc with rfl | hc
        · rfl
        · exact hinv.1 c hc hcg
      · refine List.Pairwise.cons ?_ hinv.2
        intro c hc _ hcg hsame
        have hcur : currentUserId ∈ c.participants :=
          (hsame currentUserId).mp (by simp)
        have hrec : recipientId ∈ c.participants :=
          (hsame recipientId).mp (by simp)
        exact hnone c hc (by simp [hcg, hcur, hrec])
  · -- an existing conversation is reused and nothing changes
    have hre : handleCreateDirectMessage conversations currentUserId recipientId id1
        = (conversations, some c) := by
      simp [handleCreateDirectMessage, hne', hfind]
    refine ⟨?_, ?_, ?_⟩
    · rw [hre]
      simp [handleCreateDirectMessage, hne', hfind]
    · rw [hre]
      simp [handleCreateDirectMessage, hne', hfind]
    · rw [hre]
      exact hinv

/-- Witness for claim C5: starting from no conversations, the second
request for the `x`–`y` direct conversation leaves the list unchanged. -/
theorem direct_conversation_unique_witness :
    (handleCreateDirectMessage
        (handleCreateDirectMessage [] "x" "y" "conv1").1 "x" "y" "conv2").1 =
      (handleCreateDirectMessage [] "x" "y" "conv1").1 :=
  (direct_conversation_unique [] "x" "y" "conv1" "conv2" (by decide)
    ⟨by simp, List.Pairwise.nil⟩).1

/-- Claim C10: an `updateDocument` call against the `tasks` collection
whose patch carries a comments field (and whose status check, if any,
passes) writes the stored comments list concatenated with exactly those
incoming comments authored by the calling user or matching an existing
comment id owned by the caller: every previously stored comment is
preserved (the stored list is a prefix of the written one), nothing else
is added, and every caller-authorised incoming comment is added. -/
theorem update_document_comment_append (store : Store) (uid id : String)
    (currentData : DocData) (incoming : List Comment) (patch : UpdatePatch)
    (hdoc : lookupDoc store "tasks" id = some currentData)
    (hc : patch.comments = some incoming)
    (hperm : patch.status.isSome = true →
      currentData.assignedTo = some uid ∨ isAdminOf store uid = true) :
    updateDocument store (some uid) "tasks" id patch =
      .ok (writeDoc store "tasks" id
        (applyPatch currentData
          { patch with
            comments :=
              some (mergedTaskComments uid currentData.comments incoming) })) ∧
    currentData.comments <+: mergedTaskComments uid currentData.comments incoming ∧
    (∀ c ∈ mergedTaskComments uid currentData.comments incoming,
      c ∈ currentData.comments ∨
        (c ∈ incoming ∧ (c.userId = uid ∨
          ∃ ec ∈ currentData.comments, ec.id = c.id ∧ ec.userId = uid))) ∧
    (∀ c ∈ incoming,
      (c.userId = uid ∨
          ∃ ec ∈ currentData.comments, ec.id = c.id ∧ ec.userId = uid) →
      c ∈ mergedTaskComments uid currentData.comments incoming) := by
  have hcond : (("tasks" : String) == "tasks" && patch.status.isSome
      && currentData.assignedTo != some uid && !(isAdminOf store uid)) = false := by
    by_cases hs : patch.status.isSome = true
    · rcases hperm hs with ha | ha <;> simp [hs, ha]
    · simp [Bool.of_not_eq_true hs]
  refine ⟨?_, List.prefix_append _ _, ?_, ?_⟩
  · simp only [updateDocument, hdoc]
    rw [if_neg (by rw [hcond]; exact Bool.false_ne_true)]
    simp [hc, mergedTaskComments]
  · intro c hcmem
    rcases List.mem_append.mp hcmem with h | h
    · exact Or.inl h
    · rcases List.mem_filter.mp h with ⟨hcin, hp⟩
      refine Or.inr ⟨hcin, ?_⟩
      simpa using hp
  · intro c hcin hcond2
    refine List.mem_append_right _ ?_
    refine List.mem_filter.mpr ⟨hcin, ?_⟩
    simpa using hcond2

/-- Witness for claim C10: user1 appending their comment `C` to a task
document holding `[A]` writes `[A]` followed by the filtered incoming
list. -/
theorem update_document_comment_append_witness :
    updateDocument storeWithTask (some "user1") "tasks" "t1"
        { comments := some [commentC] } =
      .ok (writeDoc storeWithTask "tasks" "t1"
        (applyPatch { assignedTo := some "user1", comments := [commentA] }
          { comments :=
              some (mergedTaskComments "user1" [commentA] [commentC]) })) :=
  (update_document_comment_append storeWithTask "user1" "t1"
    { assignedTo := some "user1", comments := [commentA] } [commentC]
    { comments := some [commentC] } rfl rfl (by simp)).1

end Fridaynz
